import Mathlib

/-!
Verification development for the Resume-Matcher ensemble scoring engine
(`resume_matcher/scoring/ensemble_scoring.py`).

The Python module is shallowly embedded: strings are Lean `String`s, Python
sets are `Finset String`, Python floats are modelled exactly as `ℚ`, and the
two regular expressions of the module (the boundary-aware term pattern built
in `extract_terms` and the metric pattern `_METRIC_RE`) are embedded as
executable matchers over `List Char` with standard existence semantics
(a search succeeds iff some alternative matches at some position).
Python `\w` is modelled at ASCII precision (letters, digits, underscore).
The pretrained sentence encoder is opaque: `embedding_similarity` and
`compute_score` are parametrised by the cosine-similarity matrix generator
`encSim` that `model.encode` + `util.cos_sim` realise; its output entries lie
in `[-1, 1]` because the embeddings are normalised, which theorems take as a
hypothesis.
-/

namespace ResumeMatcher

/-- ASCII model of the regex character class `\w` (word character). -/
def isWordChar (c : Char) : Bool := c.isAlphanum || c = '_'

/-- Python `str.lower()` at ASCII precision, on the character list. -/
def pyLower (l : List Char) : List Char := l.map Char.toLower

/-- Python `str.strip()`: drop whitespace from both ends. -/
def pyStripChars (l : List Char) : List Char :=
  ((l.dropWhile Char.isWhitespace).reverse.dropWhile Char.isWhitespace).reverse

/-- Python `str.strip()` on strings. -/
def pyStrip (s : String) : String := String.mk (pyStripChars s.data)

/-- Core of the pattern `re.escape(term_l).replace(r"\ ", r"[ \-]")` built in
`extract_terms`: every character of the (lowercased, stripped) term matches
itself literally, except that a space matches space-or-hyphen. Returns the
rest of the text after the match, or `none`. -/
def termCore : List Char → List Char → Option (List Char)
  | [], rest => some rest
  | _ :: _, [] => none
  | c :: cs, d :: ds =>
    if (c = ' ' ∧ (d = ' ' ∨ d = '-')) ∨ (c ≠ ' ' ∧ d = c) then termCore cs ds else none

/-- The negative lookbehind `(?<![\w\-])`: the preceding character (if any)
must be neither a word character nor a hyphen. -/
def boundaryFree : Option Char → Bool
  | none => true
  | some c => !(isWordChar c || c = '-')

/-- The negative lookahead `(?![\w\-])` applied to the rest of the text. -/
def boundaryFreeAfter : List Char → Bool
  | [] => true
  | c :: _ => !(isWordChar c || c = '-')

/-- One anchored attempt of the term pattern at the current position, with
`prev` the character immediately before that position. -/
def matchHere (term text : List Char) (prev : Option Char) : Bool :=
  boundaryFree prev &&
    match termCore term text with
    | some rest => boundaryFreeAfter rest
    | none => false

/-- `re.search` of the term pattern: try every position left to right. -/
def searchTerm (term : List Char) : Option Char → List Char → Bool
  | prev, [] => matchHere term [] prev
  | prev, c :: cs => matchHere term (c :: cs) prev || searchTerm term (some c) cs

/-- Embedding of `extract_terms(text, vocab)`: lowercase the text, and keep
(in vocabulary order, original casing) every term whose boundary-aware
pattern occurs in the text. -/
def extract_terms (text : String) (vocab : List String) : List String :=
  vocab.filter (fun term => searchTerm (pyStripChars (pyLower term.data)) none (pyLower text.data))

/-- Embedding of `re.sub(r"\s+", " ", t)`: every maximal whitespace run
becomes one space (the run is consumed left to right, emitting the space at
its last character). -/
def collapseWS : List Char → List Char
  | [] => []
  | [c] => if c.isWhitespace then [' '] else [c]
  | c :: d :: rest =>
    if c.isWhitespace && d.isWhitespace then collapseWS (d :: rest)
    else (if c.isWhitespace then ' ' else c) :: collapseWS (d :: rest)

/-- Embedding of `clean_text`: collapse whitespace runs to a single space,
then strip. -/
def clean_text (t : String) : String := pyStrip (String.mk (collapseWS t.data))

/-- Does the previous character end a sentence (`.`, `!` or `?`)? Models the
lookbehind `(?<=[\.\!\?])` of the sentence splitter. -/
def isSentenceEnd : Option Char → Bool
  | some c => c = '.' || c = '!' || c = '?'
  | none => false

/-- Embedding of `re.split(r"(?<=[\.\!\?])\s+", t)`: the fragment boundary is
the first whitespace character of each separator run; the remaining
whitespace of the run stays at the head of the next fragment, where the
`strip` of `split_sentences` removes it, so the final list of stripped
nonempty fragments agrees with the Python split. -/
def splitAux : Option Char → List Char → List Char → List (List Char)
  | _, acc, [] => [acc.reverse]
  | prev, acc, c :: cs =>
    if c.isWhitespace && isSentenceEnd prev then acc.reverse :: splitAux (some c) [] cs
    else splitAux (some c) (c :: acc) cs

/-- Embedding of `split_sentences`: split after sentence-final punctuation,
strip each fragment, drop the empty ones. -/
def split_sentences (t : String) : List String :=
  ((splitAux none [] t.data).map (fun l => pyStrip (String.mk l))).filter (fun s => s != "")

/-- Python `min` on two floats (here exact rationals). -/
def pyMin (a b : ℚ) : ℚ := if a ≤ b then a else b

/-- Python `max` on two floats (here exact rationals). -/
def pyMax (a b : ℚ) : ℚ := if a ≤ b then b else a

/-- Lexicographic strict comparison of character lists by code point, an
executable form of the `<` Python uses to sort strings. -/
def listLtb : List Char → List Char → Bool
  | _, [] => false
  | [], _ :: _ => true
  | a :: as, b :: bs =>
    if a < b then true
    else if b < a then false
    else listLtb as bs

/-- Lexicographic `≤` on strings by code point (Python string order). -/
def strLe (a b : String) : Bool := listLtb a.data b.data || a == b

/-- Python `sorted` on strings (lexicographic by code point). -/
def pySorted (l : List String) : List String := l.insertionSort (fun a b => strLe a b = true)

/-- Python `sorted(set(...))` on strings: deduplicate, then sort. -/
def pySortedSet (l : List String) : List String := pySorted l.dedup

/-- Python set intersection `a & b`, on deduplicated list representations of
sets: the elements of `a` that also occur in `b`. -/
def setInterList (a b : List String) : List String := a.filter (fun s => b.contains s)

/-- Python set difference `a - b` on deduplicated list representations. -/
def setDiffList (a b : List String) : List String := a.filter (fun s => !(b.contains s))

/-- Embedding of `skills_coverage(resume_text, jd_text, ontology)` factored
through the flat vocabulary (the body after the line building
`skills_vocab`). Python sets are represented by deduplicated lists; the
returned triple is (score, aligned, missing). -/
def skills_coverage_vocab (skills_vocab : List String) (resume_text jd_text : String) :
    ℚ × List String × List (String × ℚ) :=
  let jd_skills := (extract_terms jd_text skills_vocab).dedup
  let res_skills := (extract_terms resume_text skills_vocab).dedup
  if jd_skills = [] then
    (0, pySorted res_skills, [])
  else
    let inter := setInterList jd_skills res_skills
    let jd_weight : ℕ := if jd_skills.length = 0 then 1 else jd_skills.length
    let coverage : ℚ := (inter.length : ℚ) / (jd_weight : ℚ)
    (coverage, pySorted inter,
      (pySorted (setDiffList jd_skills res_skills)).map (fun s => (s, (1 : ℚ))))

/-- Embedding of `skills_coverage` on an ontology of the documented shape
(mapping of category to list of term strings):
`skills_vocab = sorted({s for bucket in ontology.values() for s in bucket})`
then the shared body. -/
def skills_coverage (resume_text jd_text : String) (ontology : List (String × List String)) :
    ℚ × List String × List (String × ℚ) :=
  skills_coverage_vocab (pySortedSet (ontology.map Prod.snd).flatten) resume_text jd_text

/-- The module constant `DEFAULT_VERBS`. -/
def DEFAULT_VERBS : List String :=
  ["built","designed","automated","optimized","deployed","analyzed","modeled",
   "visualized","orchestrated","led","improved","reduced","increased","streamlined",
   "migrated","integrated","refactored","monitored","tested","validated"]

/-- Python `verbs or DEFAULT_VERBS`: `None` and the empty list are falsy. -/
def effectiveVerbs : Option (List String) → List String
  | some vs => if vs = [] then DEFAULT_VERBS else vs
  | none => DEFAULT_VERBS

/-- Embedding of `keyword_alignment(resume_text, jd_text, verbs)`. -/
def keyword_alignment (resume_text jd_text : String) (verbs? : Option (List String)) : ℚ :=
  let verbs := effectiveVerbs verbs?
  let r := (extract_terms resume_text verbs).dedup
  let j := (extract_terms jd_text verbs).dedup
  if j = [] then 0
  else ((setInterList j r).length : ℚ) / (j.length : ℚ)

/-- First alternative of `_METRIC_RE`, anchored at the current position:
`\d+(\.\d+)?%`. Greedy digit runs are maximal; giving digits back can never
help (the next pattern character is `%` or `.`), so maximal runs realise
the regex existence semantics. -/
def alt1At (l : List Char) : Bool :=
  let ds := l.takeWhile Char.isDigit
  let rest := l.dropWhile Char.isDigit
  !ds.isEmpty &&
    match rest with
    | '%' :: _ => true
    | '.' :: r2 =>
      let ds2 := r2.takeWhile Char.isDigit
      let r3 := r2.dropWhile Char.isDigit
      !ds2.isEmpty && (match r3 with | '%' :: _ => true | _ => false)
    | _ => false

/-- Second alternative of `_METRIC_RE`, anchored: `\$?\d+[kKmM]?`. It
matches here iff the text starts with a digit, or with `$` followed by a
digit (the optional parts impose nothing). -/
def alt2At : List Char → Bool
  | [] => false
  | c :: rest =>
    c.isDigit || (c = '$' && (match rest with | d :: _ => d.isDigit | [] => false))

/-- The group `(days?|weeks?|months?|hours?)` anchored at the current
position: for match existence the optional plural `s` imposes nothing, so
this holds iff one of the singular words is a literal prefix here. -/
def timeUnitAt (l : List Char) : Bool :=
  List.isPrefixOf "day".data l || List.isPrefixOf "week".data l ||
    List.isPrefixOf "month".data l || List.isPrefixOf "hour".data l

/-- Third alternative of `_METRIC_RE`, anchored: `\b\d+\b (days?|weeks?|months?|hours?)`.
The leading `\b` requires the previous character (if any) to be a non-word
character; the `\b` after `\d+` is discharged by the literal space that
must follow, and only the maximal digit run can be followed by a non-digit,
so maximal runs realise the regex existence semantics. -/
def alt3At (prev : Option Char) (l : List Char) : Bool :=
  let ds := l.takeWhile Char.isDigit
  let rest := l.dropWhile Char.isDigit
  (match prev with | none => true | some c => !isWordChar c) &&
    !ds.isEmpty &&
    (match rest with
     | ' ' :: r2 => timeUnitAt r2
     | _ => false)

/-- `re.search` of `_METRIC_RE`: try the three alternatives at every
position left to right. -/
def metricSearchAux : Option Char → List Char → Bool
  | prev, [] => alt1At [] || alt2At [] || alt3At prev []
  | prev, c :: cs =>
    alt1At (c :: cs) || alt2At (c :: cs) || alt3At prev (c :: cs) ||
      metricSearchAux (some c) cs

/-- Embedding of `_METRIC_RE.search(line)` (as a Boolean: did it match?). -/
def metricSearch (line : String) : Bool := metricSearchAux none line.data

/-- `_METRIC_RE.search` with the third (digit-then-time-unit) alternative
removed; used to settle whether that alternative ever affects a score. -/
def metricSearchNoTimeAux : Option Char → List Char → Bool
  | _, [] => alt1At [] || alt2At []
  | _, c :: cs => alt1At (c :: cs) || alt2At (c :: cs) || metricSearchNoTimeAux (some c) cs

/-- Boolean search of the metric pattern without its time-unit alternative. -/
def metricSearchNoTime (line : String) : Bool := metricSearchNoTimeAux none line.data

/-- Embedding of `evidence_score(resume_lines)`. -/
def evidence_score (resume_lines : List String) : ℚ :=
  if resume_lines = [] then 0
  else pyMin 1 ((resume_lines.countP metricSearch : ℚ) / ((Nat.max 1 resume_lines.length : ℕ) : ℚ))

/-- Sum of the `k` largest entries of a row: the same multiset of values
that `np.partition(sim, -k, axis=1)[:, -k:]` selects, so the same sum. -/
def topkSum (k : ℕ) (row : List ℚ) : ℚ := ((row.insertionSort (· ≥ ·)).take k).sum

/-- Embedding of `embedding_similarity(resume_chunks, jd_chunks)`. The
pretrained sentence encoder is opaque: `encSim` stands for the composite
`util.cos_sim(model.encode(resume_chunks), model.encode(jd_chunks))`,
producing the cosine-similarity matrix as a list of rows (one row per
resume chunk). `topk.mean()` is the sum of the selected entries divided by
their number `len(resume_chunks) * k`. -/
def embedding_similarity (encSim : List String → List String → List (List ℚ))
    (resume_chunks jd_chunks : List String) : ℚ :=
  if resume_chunks = [] ∨ jd_chunks = [] then 0
  else
    let sim := encSim resume_chunks jd_chunks
    let k := Nat.min 3 jd_chunks.length
    let score := (sim.map (topkSum k)).sum / ((sim.length * k : ℕ) : ℚ)
    (score + 1) / 2

/-- Python `round(x, 1)` on the exact rationals of this embedding: round to
the nearest tenth (Mathlib `round`, ties upward; Python floats break ties
to even, which differs only at exact ties). -/
def round1 (x : ℚ) : ℚ := ((round (10 * x) : ℤ) : ℚ) / 10

/-- A parsed JSON value, the possible results of `json.load` in
`load_ontology`. -/
inductive JValue where
  | null : JValue
  | bool (b : Bool) : JValue
  | num (q : ℚ) : JValue
  | str (s : String) : JValue
  | arr (items : List JValue) : JValue
  | obj (fields : List (String × JValue)) : JValue

/-- The exceptions a `compute_score` call can propagate from the ontology
path: `resourceError` for a missing file or unparsable JSON raised by
`load_ontology` itself; `attributeError` for `.values()` on a non-object
and for `term.lower()` on a non-string vocabulary entry; `typeError` for
iterating a non-iterable bucket, for an unhashable set element, and for
`sorted` on a set mixing incomparable types. -/
inductive PyError where
  | resourceError : PyError
  | attributeError : PyError
  | typeError : PyError
deriving DecidableEq

/-- A member of the Python set built by the vocabulary comprehension: the
hashable values a JSON bucket can contribute. Strings come from string
elements, from the characters of a string bucket and from the keys of an
object bucket; JSON numbers and booleans both land in the mutually
comparable number class (`True == 1`), and null is `None`. -/
inductive SetItem where
  | str (s : String) : SetItem
  | numLike (q : ℚ) : SetItem
  | null : SetItem
deriving DecidableEq

/-- Is the set member a string? -/
def isStrItem : SetItem → Bool
  | .str _ => true
  | _ => false

/-- Is the set member in the number class (a JSON number or boolean)? -/
def isNumItem : SetItem → Bool
  | .numLike _ => true
  | _ => false

/-- Is the set member `None`? -/
def isNullItem : SetItem → Bool
  | .null => true
  | _ => false

/-- Python iteration of one ontology bucket during the set comprehension
`{s for bucket in ontology.values() for s in bucket}`: the members it
contributes, or the `TypeError` the comprehension itself raises there —
iterating a non-iterable bucket (number, boolean, null), or hashing an
unhashable element (a nested list or dict) of an array bucket. A string
bucket iterates as its characters, an object bucket as its keys. -/
def bucketItems : JValue → Except PyError (List SetItem)
  | .str s => .ok (s.data.map (fun c => SetItem.str (String.mk [c])))
  | .arr items =>
    items.mapM (fun v =>
      match v with
      | .str s => Except.ok (SetItem.str s)
      | .num q => Except.ok (SetItem.numLike q)
      | .bool b => Except.ok (SetItem.numLike (if b then 1 else 0))
      | .null => Except.ok SetItem.null
      | .arr _ => Except.error PyError.typeError
      | .obj _ => Except.error PyError.typeError)
  | .obj fields => .ok (fields.map (fun kv => SetItem.str kv.1))
  | .null => .error .typeError
  | .bool _ => .error .typeError
  | .num _ => .error .typeError

/-- What happens to the completed set after the comprehension: `sorted`
compares its members, raising `TypeError` as soon as two incomparable
classes (strings, numbers-with-booleans, `None`) are both present — any
ordering of such a set makes the sort compare across the classes; a sorted
all-non-string vocabulary then makes the first `term.lower()` inside
`extract_terms` raise `AttributeError`; an all-string set yields the
sorted deduplicated vocabulary. -/
def vocabOfItems (items : List SetItem) : Except PyError (List String) :=
  let hasStr := items.any isStrItem
  let hasNum := items.any isNumItem
  let hasNull := items.any isNullItem
  if (hasStr && hasNum) || (hasStr && hasNull) || (hasNum && hasNull) then
    .error .typeError
  else if hasNum || hasNull then
    .error .attributeError
  else
    .ok (pySortedSet (items.filterMap (fun i =>
      match i with
      | SetItem.str s => some s
      | _ => none)))

/-- The flat vocabulary `sorted({s for bucket in ontology.values() for s in bucket})`
built by `skills_coverage` from whatever value `json.load` produced, with
its error behaviour in program order: `.values()` on a non-object raises
`AttributeError`; then the comprehension runs to completion bucket by
bucket (`bucketItems`); then the completed set is sorted and consumed
(`vocabOfItems`). -/
def vocabOfJson : JValue → Except PyError (List String)
  | .obj fields =>
    (fields.mapM (fun kv => bucketItems kv.2)).bind (fun ls => vocabOfItems ls.flatten)
  | _ => .error .attributeError

/-- The subscores dictionary of the Score Report, each entry already
rescaled to a 0-100 percentage and rounded to one decimal. -/
structure Subscores where
  embedding_similarity : ℚ
  skills_coverage : ℚ
  keyword_alignment : ℚ
  evidence : ℚ
deriving DecidableEq

/-- The Score Report returned by `compute_score`. -/
structure ScoreReport where
  total_score : ℚ
  subscores : Subscores
  aligned_skills : List String
  missing_skills : List (String × ℚ)
deriving DecidableEq

/-- The body of `compute_score` once the flat skills vocabulary is fixed:
normalisation, sentence split, the four sub-scores, the weighted total
clamped to `[0, 100]` after rounding to one decimal, and the packaging of
the aligned/missing lists. -/
def compute_score_core (encSim : List String → List String → List (List ℚ))
    (resume_text0 jd_text0 : String) (skills_vocab : List String) : ScoreReport :=
  let resume_text := clean_text resume_text0
  let jd_text := clean_text jd_text0
  let resume_chunks := split_sentences resume_text
  let jd_chunks := split_sentences jd_text
  let emb := embedding_similarity encSim resume_chunks jd_chunks
  let covRes := skills_coverage_vocab skills_vocab resume_text jd_text
  let verbs := keyword_alignment resume_text jd_text none
  let evid := evidence_score resume_chunks
  let total := pyMax 0 (pyMin 100 (round1 (40 * emb + 30 * covRes.1 + 15 * verbs + 15 * evid)))
  { total_score := total
    subscores :=
      { embedding_similarity := round1 (100 * emb)
        skills_coverage := round1 (100 * covRes.1)
        keyword_alignment := round1 (100 * verbs)
        evidence := round1 (100 * evid) }
    aligned_skills := covRes.2.1
    missing_skills := covRes.2.2 }

/-- Embedding of `compute_score(resume_text, jd_text, ontology_path)`. The
resource read and parse are modelled by an `Option JValue`: `none` when the
file is missing or not JSON (the error `load_ontology` propagates), `some j`
for a parsed value `j`, which `skills_coverage` then consumes. -/
def compute_score (encSim : List String → List String → List (List ℚ))
    (resume_text0 jd_text0 : String) (ontology_resource : Option JValue) :
    Except PyError ScoreReport :=
  match ontology_resource with
  | none => .error .resourceError
  | some j => (vocabOfJson j).map (compute_score_core encSim resume_text0 jd_text0)

/-- The Score Report of `compute_score` on an ontology of the documented
shape (category to list of term strings). -/
def compute_score_report (encSim : List String → List String → List (List ℚ))
    (resume_text0 jd_text0 : String) (ontology : List (String × List String)) : ScoreReport :=
  compute_score_core encSim resume_text0 jd_text0 (pySortedSet (ontology.map Prod.snd).flatten)

/-- The JSON encoding of an ontology of the documented shape. -/
def encodeOntology (ontology : List (String × List String)) : JValue :=
  .obj (ontology.map (fun p => (p.1, .arr (p.2.map .str))))

/-- A cosine-similarity matrix generator `encSim` is well formed when it has
one row per resume chunk, one column per JD chunk, and entries in `[-1, 1]`
(the cosines of normalised embedding vectors). -/
def goodEnc (encSim : List String → List String → List (List ℚ)) : Prop :=
  ∀ r j : List String,
    (encSim r j).length = r.length ∧
      ∀ row ∈ encSim r j, row.length = j.length ∧ ∀ x ∈ row, -1 ≤ x ∧ x ≤ 1

/-- A concrete well-formed similarity generator: every cosine is `0`. -/
def encSimZero (r j : List String) : List (List ℚ) := r.map (fun _ => j.map (fun _ => (0 : ℚ)))

/-- Did an embedded call return normally? -/
def isOkResult : Except PyError ScoreReport → Bool
  | .ok _ => true
  | .error _ => false

/-- The flat deduplicated vocabulary an ontology of the documented shape
yields, exactly `skills_vocab` as built in `skills_coverage`. -/
def ontologyVocab (ontology : List (String × List String)) : List String :=
  pySortedSet (ontology.map Prod.snd).flatten

/-- The set of vocabulary terms found in a text (a Term Match Result). -/
def termSet (text : String) (vocab : List String) : Finset String :=
  (extract_terms text vocab).toFinset

theorem dedup_toFinset (l : List String) : l.dedup.toFinset = l.toFinset := by
  ext a; simp [List.mem_dedup]

theorem alt1At_eq_false {c : Char} (cs : List Char) (hc : c.isDigit = false) :
    alt1At (c :: cs) = false := by
  simp [alt1At, List.takeWhile_cons, hc]

theorem alt3At_eq_false (prev : Option Char) {c : Char} (cs : List Char)
    (hc : c.isDigit = false) : alt3At prev (c :: cs) = false := by
  simp [alt3At, List.takeWhile_cons, hc]

theorem alt2At_true_of_digit {c : Char} (cs : List Char) (hc : c.isDigit = true) :
    alt2At (c :: cs) = true := by
  simp [alt2At, hc]

theorem any_digit_of_alt2At {c : Char} {cs : List Char} (hc : c.isDigit = false)
    (h : alt2At (c :: cs) = true) : cs.any Char.isDigit = true := by
  cases cs with
  | nil => simp [alt2At, hc] at h
  | cons d ds =>
    simp only [alt2At, hc, Bool.false_or, Bool.and_eq_true, decide_eq_true_eq] at h
    simp [List.any_cons, h.2]

theorem metricSearchAux_eq_any :
    ∀ (l : List Char) (prev : Option Char), metricSearchAux prev l = l.any Char.isDigit := by
  intro l
  induction l with
  | nil => intro prev; simp [metricSearchAux, alt1At, alt2At, alt3At]
  | cons c cs ih =>
    intro prev
    simp only [metricSearchAux]
    rw [ih (some c)]
    cases hc : c.isDigit with
    | true => simp [List.any_cons, hc, alt2At_true_of_digit cs hc]
    | false =>
      rw [alt1At_eq_false cs hc, alt3At_eq_false prev cs hc]
      cases h2 : alt2At (c :: cs) with
      | false => simp [List.any_cons, hc]
      | true => simp [List.any_cons, hc, any_digit_of_alt2At hc h2]

theorem metricSearchNoTimeAux_eq_any :
    ∀ (l : List Char) (prev : Option Char), metricSearchNoTimeAux prev l = l.any Char.isDigit := by
  intro l
  induction l with
  | nil => intro prev; simp [metricSearchNoTimeAux, alt1At, alt2At]
  | cons c cs ih =>
    intro prev
    simp only [metricSearchNoTimeAux]
    rw [ih (some c)]
    cases hc : c.isDigit with
    | true => simp [List.any_cons, hc, alt2At_true_of_digit cs hc]
    | false =>
      rw [alt1At_eq_false cs hc]
      cases h2 : alt2At (c :: cs) with
      | false => simp [List.any_cons, hc]
      | true => simp [List.any_cons, hc, any_digit_of_alt2At hc h2]

/-- C10: every sentence containing any decimal digit counts as
evidence-bearing, because the currency alternative of `_METRIC_RE` makes
both the dollar sign and the k/m suffix optional, so `\$?\d+[kKmM]?`
matches at any digit; consequently dropping the digit-followed-by-time-unit
alternative never changes a search result, and `evidence_score` is
unchanged when counting with the reduced pattern. -/
theorem claim_C10_metric_matches_any_digit :
    (∀ line : String, metricSearch line = line.data.any Char.isDigit) ∧
    (∀ line : String, metricSearchNoTime line = metricSearch line) ∧
    (∀ lines : List String, evidence_score lines =
      if lines = [] then 0
      else pyMin 1 ((lines.countP metricSearchNoTime : ℚ) /
        ((Nat.max 1 lines.length : ℕ) : ℚ))) := by
  have h1 : ∀ line : String, metricSearch line = line.data.any Char.isDigit :=
    fun line => metricSearchAux_eq_any _ _
  have h2 : ∀ line : String, metricSearchNoTime line = metricSearch line := fun line => by
    rw [h1]; exact metricSearchNoTimeAux_eq_any _ _
  refine ⟨h1, h2, fun lines => ?_⟩
  rw [show metricSearchNoTime = metricSearch from funext h2]
  rfl

/-- C3 counterexample: the claim also asserts that vocabulary term
`"node js"` matches the spelling `"node.js"`, but the built pattern turns
the space only into space-or-hyphen, so the dot spelling does not match. -/
theorem claim_C3_counterexample : extract_terms "node.js" ["node js"] = [] := by decide

/-- C3 as amended: term `"java"` does not match inside
`"javascript developer"`, and term `"node js"` matches the spellings
`"node js"` and `"node-js"`, but not `"node.js"`. -/
theorem claim_C3_amended :
    extract_terms "javascript developer" ["java"] = [] ∧
    extract_terms "node js" ["node js"] = ["node js"] ∧
    extract_terms "node-js" ["node js"] = ["node js"] ∧
    extract_terms "node.js" ["node js"] = [] :=
  ⟨by decide, by decide, by decide, by decide⟩

theorem listLtb_lex : ∀ as bs : List Char, listLtb as bs = true ↔ List.Lex (· < ·) as bs := by
  intro as
  induction as with
  | nil =>
    intro bs
    cases bs with
    | nil =>
      simp only [listLtb, Bool.false_eq_true, false_iff]
      intro h; nomatch h
    | cons b bs =>
      simp only [listLtb, true_iff]
      exact List.Lex.nil
  | cons a as ih =>
    intro bs
    cases bs with
    | nil =>
      simp only [listLtb, Bool.false_eq_true, false_iff]
      intro h; nomatch h
    | cons b bs =>
      simp only [listLtb]
      split_ifs with h1 h2
      · simp only [true_iff]
        exact List.Lex.rel h1
      · simp only [Bool.false_eq_true, false_iff]
        intro hlex
        cases hlex with
        | rel hh => exact absurd hh (asymm h2)
        | cons hh => exact absurd h2 (lt_irrefl _)
      · have hab : a = b := le_antisymm (not_lt.mp h2) (not_lt.mp h1)
        subst hab
        rw [ih bs]
        constructor
        · exact fun h => List.Lex.cons h
        · intro hlex
          cases hlex with
          | rel hh => exact absurd hh (lt_irrefl _)
          | cons hh => exact hh

theorem strLe_iff (a b : String) : strLe a b = true ↔ a ≤ b := by
  unfold strLe
  rw [Bool.or_eq_true, beq_iff_eq, listLtb_lex]
  have hlt : List.Lex (· < ·) a.data b.data ↔ a < b := by
    rw [String.lt_iff_toList_lt]
    exact Iff.rfl
  rw [hlt]
  constructor
  · rintro (h | rfl)
    · exact le_of_lt h
    · exact le_refl a
  · intro h
    rcases lt_or_eq_of_le h with h1 | h1
    · exact Or.inl h1
    · exact Or.inr h1

theorem pySorted_sorted (l : List String) : (pySorted l).Sorted (· ≤ ·) := by
  haveI h1 : IsTotal String (fun a b => strLe a b = true) :=
    ⟨fun a b => by
      rcases le_total a b with h | h
      · exact Or.inl ((strLe_iff a b).mpr h)
      · exact Or.inr ((strLe_iff b a).mpr h)⟩
  haveI h2 : IsTrans String (fun a b => strLe a b = true) :=
    ⟨fun a b c hab hbc =>
      (strLe_iff a c).mpr (le_trans ((strLe_iff a b).mp hab) ((strLe_iff b c).mp hbc))⟩
  exact (List.sorted_insertionSort _ l).imp (fun h => (strLe_iff _ _).mp h)

theorem mem_pySorted {l : List String} {s : String} : s ∈ pySorted l ↔ s ∈ l :=
  List.mem_insertionSort _

theorem mem_setInterList {a b : List String} {s : String} :
    s ∈ setInterList a b ↔ s ∈ a ∧ s ∈ b := by
  simp [setInterList, List.mem_filter]

theorem mem_setDiffList {a b : List String} {s : String} :
    s ∈ setDiffList a b ↔ s ∈ a ∧ s ∉ b := by
  simp [setDiffList, List.mem_filter]

theorem setInterList_toFinset (a b : List String) :
    (setInterList a b).toFinset = a.toFinset ∩ b.toFinset := by
  ext s; simp [setInterList, List.mem_filter]

theorem setInterList_length (a b : List String) (ha : a.Nodup) :
    (setInterList a b).length = (a.toFinset ∩ b.toFinset).card := by
  rw [← setInterList_toFinset a b]
  exact (List.toFinset_card_of_nodup (ha.filter _)).symm

theorem skills_coverage_vocab_empty (vocab : List String) (resume jd : String)
    (h : extract_terms jd vocab = []) :
    skills_coverage_vocab vocab resume jd =
      (0, pySorted (extract_terms resume vocab).dedup, []) := by
  simp [skills_coverage_vocab, h]

theorem skills_coverage_vocab_nonempty (vocab : List String) (resume jd : String)
    (h : extract_terms jd vocab ≠ []) :
    skills_coverage_vocab vocab resume jd =
      (((setInterList (extract_terms jd vocab).dedup
            (extract_terms resume vocab).dedup).length : ℚ) /
          ((extract_terms jd vocab).dedup.length : ℚ),
        pySorted (setInterList (extract_terms jd vocab).dedup
          (extract_terms resume vocab).dedup),
        (pySorted (setDiffList (extract_terms jd vocab).dedup
          (extract_terms resume vocab).dedup)).map (fun s => (s, (1 : ℚ)))) := by
  have hd : (extract_terms jd vocab).dedup ≠ [] := by simpa [List.dedup_eq_nil] using h
  have hlen : ¬ (extract_terms jd vocab).dedup.length = 0 := by
    simpa [List.length_eq_zero] using hd
  simp only [skills_coverage_vocab, if_neg hd, if_neg hlen]

theorem skills_coverage_vocab_fst (vocab : List String) (resume jd : String) :
    (skills_coverage_vocab vocab resume jd).1 =
      if (extract_terms jd vocab).toFinset = ∅ then 0
      else (((extract_terms jd vocab).toFinset ∩ (extract_terms resume vocab).toFinset).card : ℚ) /
        ((extract_terms jd vocab).toFinset.card : ℚ) := by
  by_cases h : extract_terms jd vocab = []
  · rw [skills_coverage_vocab_empty vocab resume jd h]
    simp [h]
  · have hf : (extract_terms jd vocab).toFinset ≠ ∅ := by
      simpa [List.toFinset_eq_empty_iff] using h
    rw [skills_coverage_vocab_nonempty vocab resume jd h, if_neg hf]
    rw [setInterList_length _ _ (List.nodup_dedup _), dedup_toFinset, dedup_toFinset,
      List.card_toFinset]

/-- C2: on a JD whose extracted term set is non-empty, `skills_coverage`
returns the recall score |JD-terms ∩ resume-terms| / |JD-terms|, the sorted
intersection as `aligned`, and the JD terms missing from the resume, sorted
by term and tagged with importance 1.0, as `missing`. -/
theorem claim_C2_skills_coverage_formula (resume jd : String)
    (ontology : List (String × List String))
    (hJ : termSet jd (ontologyVocab ontology) ≠ ∅) :
    (skills_coverage resume jd ontology).1 =
        ((termSet jd (ontologyVocab ontology) ∩ termSet resume (ontologyVocab ontology)).card : ℚ) /
          ((termSet jd (ontologyVocab ontology)).card : ℚ) ∧
      (skills_coverage resume jd ontology).2.1.Sorted (· ≤ ·) ∧
      (∀ s, s ∈ (skills_coverage resume jd ontology).2.1 ↔
        s ∈ termSet jd (ontologyVocab ontology) ∩ termSet resume (ontologyVocab ontology)) ∧
      ((skills_coverage resume jd ontology).2.2.map Prod.fst).Sorted (· ≤ ·) ∧
      (∀ p ∈ (skills_coverage resume jd ontology).2.2, p.2 = (1 : ℚ)) ∧
      (∀ s, (s, (1 : ℚ)) ∈ (skills_coverage resume jd ontology).2.2 ↔
        s ∈ termSet jd (ontologyVocab ontology) \ termSet resume (ontologyVocab ontology)) := by
  have hJ' : (extract_terms jd (ontologyVocab ontology)).toFinset ≠ ∅ := hJ
  have hne : extract_terms jd (ontologyVocab ontology) ≠ [] := by
    simpa [List.toFinset_eq_empty_iff] using hJ'
  have hrw : skills_coverage resume jd ontology =
      skills_coverage_vocab (ontologyVocab ontology) resume jd := rfl
  refine ⟨?_, ?_, ?_, ?_, ?_, ?_⟩
  · rw [hrw, skills_coverage_vocab_fst, if_neg hJ']
    rfl
  · rw [hrw, skills_coverage_vocab_nonempty _ _ _ hne]
    exact pySorted_sorted _
  · intro s
    rw [hrw, skills_coverage_vocab_nonempty _ _ _ hne]
    simp [mem_pySorted, mem_setInterList, List.mem_dedup, termSet, List.mem_toFinset]
  · rw [hrw, skills_coverage_vocab_nonempty _ _ _ hne]
    have hmm : (Prod.fst ∘ fun s : String => (s, (1 : ℚ))) = id := rfl
    simp only [List.map_map, hmm, List.map_id]
    exact pySorted_sorted _
  · rw [hrw, skills_coverage_vocab_nonempty _ _ _ hne]
    intro p hp
    simp only [List.mem_map] at hp
    obtain ⟨s, -, rfl⟩ := hp
    rfl
  · intro s
    rw [hrw, skills_coverage_vocab_nonempty _ _ _ hne]
    simp [List.mem_map, mem_pySorted, mem_setDiffList, List.mem_dedup, termSet,
      Finset.mem_sdiff, List.mem_toFinset]

/-- C4: when no vocabulary term is found in the JD text, `skills_coverage`
returns score 0.0, the resume's own extracted terms (sorted) as `aligned`,
and an empty `missing` list; the call is total, no error path exists. -/
theorem claim_C4_empty_jd_fallback (resume jd : String)
    (ontology : List (String × List String))
    (hJ : termSet jd (ontologyVocab ontology) = ∅) :
    (skills_coverage resume jd ontology).1 = 0 ∧
      (skills_coverage resume jd ontology).2.1.Sorted (· ≤ ·) ∧
      (∀ s, s ∈ (skills_coverage resume jd ontology).2.1 ↔
        s ∈ termSet resume (ontologyVocab ontology)) ∧
      (skills_coverage resume jd ontology).2.2 = [] := by
  have h : extract_terms jd (ontologyVocab ontology) = [] := by
    simpa [termSet, List.toFinset_eq_empty_iff] using hJ
  have hrw : skills_coverage resume jd ontology =
      skills_coverage_vocab (ontologyVocab ontology) resume jd := rfl
  rw [hrw, skills_coverage_vocab_empty _ _ _ h]
  refine ⟨rfl, pySorted_sorted _, ?_, rfl⟩
  intro s
  simp [mem_pySorted, List.mem_dedup, termSet, List.mem_toFinset]

theorem keyword_alignment_eq (resume jd : String) (verbs? : Option (List String)) :
    keyword_alignment resume jd verbs? =
      if termSet jd (effectiveVerbs verbs?) = ∅ then 0
      else ((termSet resume (effectiveVerbs verbs?) ∩ termSet jd (effectiveVerbs verbs?)).card : ℚ) /
        ((termSet jd (effectiveVerbs verbs?)).card : ℚ) := by
  simp only [termSet]
  by_cases h : extract_terms jd (effectiveVerbs verbs?) = []
  · simp [keyword_alignment, h]
  · have hd : (extract_terms jd (effectiveVerbs verbs?)).dedup ≠ [] := by
      simpa [List.dedup_eq_nil] using h
    have hf : ¬ (extract_terms jd (effectiveVerbs verbs?)).toFinset = ∅ := by
      simpa [List.toFinset_eq_empty_iff] using h
    simp only [keyword_alignment, if_neg hd, if_neg hf]
    rw [setInterList_length _ _ (List.nodup_dedup _), dedup_toFinset, dedup_toFinset,
      List.card_toFinset, Finset.inter_comm]

/-- C5: keyword alignment over the effective verb vocabulary (the caller's
list, or the 20 default achievement verbs when the caller passes none)
equals |resume-verbs ∩ jd-verbs| / |jd-verbs| when the JD contains at least
one tracked verb, and 0.0 when it contains none. -/
theorem claim_C5_keyword_alignment (resume jd : String) (verbs? : Option (List String)) :
    (termSet jd (effectiveVerbs verbs?) ≠ ∅ →
      keyword_alignment resume jd verbs? =
        ((termSet resume (effectiveVerbs verbs?) ∩ termSet jd (effectiveVerbs verbs?)).card : ℚ) /
          ((termSet jd (effectiveVerbs verbs?)).card : ℚ)) ∧
    (termSet jd (effectiveVerbs verbs?) = ∅ → keyword_alignment resume jd verbs? = 0) ∧
    DEFAULT_VERBS.length = 20 := by
  refine ⟨fun h => ?_, fun h => ?_, by decide⟩
  · rw [keyword_alignment_eq, if_neg h]
  · rw [keyword_alignment_eq, if_pos h]

/-- C9: extending a JD by one vocabulary term that the resume also contains
(the other extracted JD terms and their overlap with the resume unchanged)
never decreases the `skills_coverage` score. -/
theorem claim_C9_coverage_monotone (resume jd jd2 : String)
    (ontology : List (String × List String)) (t : String)
    (htR : t ∈ termSet resume (ontologyVocab ontology))
    (htJ : t ∉ termSet jd (ontologyVocab ontology))
    (hext : termSet jd2 (ontologyVocab ontology) =
      insert t (termSet jd (ontologyVocab ontology))) :
    (skills_coverage resume jd ontology).1 ≤ (skills_coverage resume jd2 ontology).1 := by
  simp only [termSet] at htR htJ hext
  have hrw1 : (skills_coverage resume jd ontology).1 =
      (skills_coverage_vocab (ontologyVocab ontology) resume jd).1 := rfl
  have hrw2 : (skills_coverage resume jd2 ontology).1 =
      (skills_coverage_vocab (ontologyVocab ontology) resume jd2).1 := rfl
  rw [hrw1, hrw2, skills_coverage_vocab_fst, skills_coverage_vocab_fst, hext]
  rw [if_neg (Finset.insert_ne_empty t _)]
  have hi : insert t ((extract_terms jd (ontologyVocab ontology)).toFinset) ∩
      (extract_terms resume (ontologyVocab ontology)).toFinset =
      insert t ((extract_terms jd (ontologyVocab ontology)).toFinset ∩
        (extract_terms resume (ontologyVocab ontology)).toFinset) :=
    Finset.insert_inter_of_mem htR
  have htJR : t ∉ (extract_terms jd (ontologyVocab ontology)).toFinset ∩
      (extract_terms resume (ontologyVocab ontology)).toFinset :=
    fun hm => htJ (Finset.mem_inter.mp hm).1
  rw [hi, Finset.card_insert_of_not_mem htJR, Finset.card_insert_of_not_mem htJ]
  by_cases hJ : (extract_terms jd (ontologyVocab ontology)).toFinset = ∅
  · rw [if_pos hJ]
    positivity
  · rw [if_neg hJ]
    have hn : 0 < ((extract_terms jd (ontologyVocab ontology)).toFinset.card : ℚ) := by
      exact_mod_cast Finset.card_pos.mpr (Finset.nonempty_iff_ne_empty.mpr hJ)
    have hle : (((extract_terms jd (ontologyVocab ontology)).toFinset ∩
        (extract_terms resume (ontologyVocab ontology)).toFinset).card : ℚ) ≤
        ((extract_terms jd (ontologyVocab ontology)).toFinset.card : ℚ) := by
      exact_mod_cast Finset.card_le_card Finset.inter_subset_left
    rw [div_le_div_iff₀ hn (by push_cast; linarith)]
    push_cast
    nlinarith

theorem evidence_score_mem (lines : List String) :
    0 ≤ evidence_score lines ∧ evidence_score lines ≤ 1 := by
  unfold evidence_score
  split_ifs with h
  · norm_num
  · unfold pyMin
    split_ifs with h1
    · norm_num
    · refine ⟨by positivity, by linarith [not_le.mp h1]⟩

theorem skills_coverage_vocab_fst_mem (vocab : List String) (resume jd : String) :
    0 ≤ (skills_coverage_vocab vocab resume jd).1 ∧
      (skills_coverage_vocab vocab resume jd).1 ≤ 1 := by
  rw [skills_coverage_vocab_fst]
  split_ifs with h
  · norm_num
  · have hn : 0 < ((extract_terms jd vocab).toFinset.card : ℚ) := by
      exact_mod_cast Finset.card_pos.mpr (Finset.nonempty_iff_ne_empty.mpr h)
    refine ⟨by positivity, ?_⟩
    rw [div_le_one hn]
    exact_mod_cast Finset.card_le_card Finset.inter_subset_left

theorem keyword_alignment_mem (resume jd : String) (verbs? : Option (List String)) :
    0 ≤ keyword_alignment resume jd verbs? ∧ keyword_alignment resume jd verbs? ≤ 1 := by
  rw [keyword_alignment_eq]
  split_ifs with h
  · norm_num
  · have hn : 0 < ((termSet jd (effectiveVerbs verbs?)).card : ℚ) := by
      exact_mod_cast Finset.card_pos.mpr (Finset.nonempty_iff_ne_empty.mpr h)
    refine ⟨by positivity, ?_⟩
    rw [div_le_one hn]
    exact_mod_cast Finset.card_le_card Finset.inter_subset_right

theorem topkSum_bounds {k : ℕ} {row : List ℚ} (hk : k ≤ row.length)
    (h : ∀ x ∈ row, -1 ≤ x ∧ x ≤ 1) :
    -(k : ℚ) ≤ topkSum k row ∧ topkSum k row ≤ (k : ℚ) := by
  unfold topkSum
  have hmem : ∀ x ∈ (row.insertionSort (· ≥ ·)).take k, -1 ≤ x ∧ x ≤ 1 := by
    intro x hx
    exact h x ((List.mem_insertionSort _).mp (List.take_subset _ _ hx))
  have hlen : ((row.insertionSort (· ≥ ·)).take k).length = k := by
    rw [List.length_take, List.length_insertionSort]
    exact Nat.min_eq_left hk
  constructor
  · have hlow := List.card_nsmul_le_sum ((row.insertionSort (· ≥ ·)).take k) (-1 : ℚ)
      (fun x hx => (hmem x hx).1)
    rw [hlen] at hlow
    simpa [nsmul_eq_mul] using hlow
  · have hup := List.sum_le_card_nsmul ((row.insertionSort (· ≥ ·)).take k) (1 : ℚ)
      (fun x hx => (hmem x hx).2)
    rw [hlen] at hup
    simpa [nsmul_eq_mul] using hup

theorem embedding_similarity_eq (encSim : List String → List String → List (List ℚ))
    (r j : List String) (hr : r ≠ []) (hj : j ≠ []) :
    embedding_similarity encSim r j =
      (((encSim r j).map (topkSum (Nat.min 3 j.length))).sum /
        (((encSim r j).length * Nat.min 3 j.length : ℕ) : ℚ) + 1) / 2 := by
  unfold embedding_similarity
  rw [if_neg (not_or.mpr ⟨hr, hj⟩)]

theorem embedding_similarity_mem (encSim : List String → List String → List (List ℚ))
    (h : goodEnc encSim) (r j : List String) :
    0 ≤ embedding_similarity encSim r j ∧ embedding_similarity encSim r j ≤ 1 := by
  by_cases hre : r = [] ∨ j = []
  · unfold embedding_similarity
    rw [if_pos hre]
    norm_num
  · push_neg at hre
    obtain ⟨hr, hj⟩ := hre
    obtain ⟨hlen, hrows⟩ := h r j
    rw [embedding_similarity_eq encSim r j hr hj]
    have hk1 : 1 ≤ Nat.min 3 j.length :=
      Nat.le_min.mpr ⟨by norm_num, List.length_pos.mpr hj⟩
    have hr1 : 1 ≤ (encSim r j).length := by
      rw [hlen]; exact List.length_pos.mpr hr
    have hmap : ∀ y ∈ (encSim r j).map (topkSum (Nat.min 3 j.length)),
        -((Nat.min 3 j.length : ℕ) : ℚ) ≤ y ∧ y ≤ ((Nat.min 3 j.length : ℕ) : ℚ) := by
      intro y hy
      obtain ⟨row, hrow, rfl⟩ := List.mem_map.mp hy
      obtain ⟨hrl, hent⟩ := hrows row hrow
      have hkle : Nat.min 3 j.length ≤ row.length := by
        rw [hrl]; exact Nat.min_le_right 3 j.length
      exact topkSum_bounds hkle hent
    have hD : (0 : ℚ) < (((encSim r j).length * Nat.min 3 j.length : ℕ) : ℚ) := by
      exact_mod_cast Nat.mul_pos hr1 hk1
    have hup := List.sum_le_card_nsmul ((encSim r j).map (topkSum (Nat.min 3 j.length)))
      (((Nat.min 3 j.length : ℕ) : ℚ)) (fun y hy => (hmap y hy).2)
    have hlow := List.card_nsmul_le_sum ((encSim r j).map (topkSum (Nat.min 3 j.length)))
      (-((Nat.min 3 j.length : ℕ) : ℚ)) (fun y hy => (hmap y hy).1)
    rw [List.length_map] at hup hlow
    have hcast : ((((encSim r j).length * Nat.min 3 j.length : ℕ)) : ℚ) =
        ((encSim r j).length : ℚ) * ((Nat.min 3 j.length : ℕ) : ℚ) := by push_cast; ring
    have hSle : ((encSim r j).map (topkSum (Nat.min 3 j.length))).sum ≤
        (((encSim r j).length * Nat.min 3 j.length : ℕ) : ℚ) := by
      rw [hcast]
      simpa [nsmul_eq_mul] using hup
    have hSge : -((((encSim r j).length * Nat.min 3 j.length : ℕ)) : ℚ) ≤
        ((encSim r j).map (topkSum (Nat.min 3 j.length))).sum := by
      rw [hcast]
      simpa [nsmul_eq_mul, mul_comm] using hlow
    have hq1 : ((encSim r j).map (topkSum (Nat.min 3 j.length))).sum /
        (((encSim r j).length * Nat.min 3 j.length : ℕ) : ℚ) ≤ 1 := by
      rw [div_le_one hD]; exact hSle
    have hq2 : (-1 : ℚ) ≤ ((encSim r j).map (topkSum (Nat.min 3 j.length))).sum /
        (((encSim r j).length * Nat.min 3 j.length : ℕ) : ℚ) := by
      rw [le_div_iff₀ hD]; linarith
    constructor <;> linarith

/-- C8: `embedding_similarity` returns 0.0 as soon as either chunk list is
empty; otherwise, with the pretrained encoder opaque (a generator of
cosine matrices with entries in [-1, 1]), it returns the mean of each
resume sentence's top-k similarities to the JD sentences, with
`k = min(3, number of JD sentences)`, rescaled by `(value + 1) / 2`, a
value in `[0, 1]`. -/
theorem claim_C8_embedding_similarity (encSim : List String → List String → List (List ℚ))
    (h : goodEnc encSim) (r j : List String) :
    ((r = [] ∨ j = []) → embedding_similarity encSim r j = 0) ∧
    (r ≠ [] → j ≠ [] →
      embedding_similarity encSim r j =
        (((encSim r j).map (topkSum (Nat.min 3 j.length))).sum /
          (((encSim r j).length * Nat.min 3 j.length : ℕ) : ℚ) + 1) / 2 ∧
      0 ≤ embedding_similarity encSim r j ∧ embedding_similarity encSim r j ≤ 1) := by
  refine ⟨fun he => ?_, fun hr hj => ⟨embedding_similarity_eq encSim r j hr hj, ?_, ?_⟩⟩
  · unfold embedding_similarity
    rw [if_pos he]
  · exact (embedding_similarity_mem encSim h r j).1
  · exact (embedding_similarity_mem encSim h r j).2

theorem round1_mono {x y : ℚ} (h : x ≤ y) : round1 x ≤ round1 y := by
  unfold round1
  have hr : round (10 * x) ≤ round (10 * y) := by
    rw [round_eq, round_eq]
    exact Int.floor_mono (by linarith)
  have hrq : ((round (10 * x) : ℤ) : ℚ) ≤ ((round (10 * y) : ℤ) : ℚ) := by exact_mod_cast hr
  linarith

theorem round1_mem_0_100 {x : ℚ} (h0 : 0 ≤ x) (h1 : x ≤ 100) :
    0 ≤ round1 x ∧ round1 x ≤ 100 := by
  have e0 : round1 0 = 0 := by unfold round1; simp
  have e100 : round1 100 = 100 := by
    unfold round1
    rw [show (10 : ℚ) * 100 = ((1000 : ℤ) : ℚ) by norm_num, round_intCast]
    norm_num
  exact ⟨by rw [← e0]; exact round1_mono h0, by rw [← e100]; exact round1_mono h1⟩

theorem clamp_mem (z : ℚ) : 0 ≤ pyMax 0 (pyMin 100 z) ∧ pyMax 0 (pyMin 100 z) ≤ 100 := by
  unfold pyMax pyMin
  split_ifs <;> constructor <;> linarith

/-- C6: `evidence_score` is the number of metric-bearing sentences over the
total number of sentences, capped at 1.0, with the empty input yielding
0.0; on `["Grew revenue by 20%.", "Led a team."]` it is 0.5. -/
theorem claim_C6_evidence_score :
    (∀ lines : List String, lines ≠ [] →
      evidence_score lines =
        pyMin 1 ((lines.countP metricSearch : ℚ) / (lines.length : ℚ))) ∧
    evidence_score [] = 0 ∧
    evidence_score ["Grew revenue by 20%.", "Led a team."] = 1 / 2 := by
  refine ⟨fun lines h => ?_, rfl, ?_⟩
  · unfold evidence_score
    have hm : Nat.max 1 lines.length = lines.length :=
      Nat.max_eq_right (List.length_pos.mpr h)
    rw [if_neg h, hm]
  · have h : List.countP metricSearch ["Grew revenue by 20%.", "Led a team."] = 1 := by decide
    rw [evidence_score, if_neg (by decide), h]
    norm_num [pyMin]

theorem bucketItems_encode (terms : List String) :
    bucketItems (JValue.arr (terms.map JValue.str)) =
      Except.ok (terms.map SetItem.str) := by
  induction terms with
  | nil => rfl
  | cons t ts ih =>
    simp only [List.map_cons, bucketItems, List.mapM_cons] at ih ⊢
    rw [ih]
    rfl

theorem mapM_bucketItems_encode (ontology : List (String × List String)) :
    List.mapM (fun kv => bucketItems kv.2)
      (ontology.map (fun p => (p.1, JValue.arr (p.2.map JValue.str)))) =
      Except.ok (ontology.map (fun p => p.2.map SetItem.str)) := by
  induction ontology with
  | nil => rfl
  | cons p ps ih =>
    simp only [List.map_cons, List.mapM_cons]
    rw [bucketItems_encode p.2, ih]
    rfl

theorem flatten_map_setItemStr (L : List (List String)) :
    (L.map (fun ts => ts.map SetItem.str)).flatten = L.flatten.map SetItem.str := by
  induction L with
  | nil => rfl
  | cons t ts ih =>
    rw [List.map_cons, List.flatten_cons, List.flatten_cons, List.map_append, ih]

theorem any_isNumItem_map_str (strs : List String) :
    (strs.map SetItem.str).any isNumItem = false := by
  induction strs with
  | nil => rfl
  | cons s ss ih => simp [isNumItem, ih]

theorem any_isNullItem_map_str (strs : List String) :
    (strs.map SetItem.str).any isNullItem = false := by
  induction strs with
  | nil => rfl
  | cons s ss ih => simp [isNullItem, ih]

theorem filterMap_str_map_str (strs : List String) :
    (strs.map SetItem.str).filterMap (fun i =>
      match i with
      | SetItem.str s => some s
      | _ => none) = strs := by
  induction strs with
  | nil => rfl
  | cons s ss ih =>
    rw [List.map_cons, List.filterMap_cons]
    show s :: (ss.map SetItem.str).filterMap (fun i =>
      match i with
      | SetItem.str s => some s
      | _ => none) = s :: ss
    rw [ih]

theorem vocabOfItems_str (strs : List String) :
    vocabOfItems (strs.map SetItem.str) = Except.ok (pySortedSet strs) := by
  simp only [vocabOfItems, any_isNumItem_map_str, any_isNullItem_map_str, Bool.and_false,
    Bool.false_and, Bool.or_false, Bool.false_or, Bool.or_self]
  rw [if_neg (by simp), if_neg (by simp), filterMap_str_map_str]

theorem vocabOfJson_encode (ontology : List (String × List String)) :
    vocabOfJson (encodeOntology ontology) =
      Except.ok (pySortedSet (ontology.map Prod.snd).flatten) := by
  simp only [vocabOfJson, encodeOntology]
  rw [mapM_bucketItems_encode]
  show vocabOfItems ((ontology.map (fun p => p.2.map SetItem.str)).flatten) = _
  have hm : ontology.map (fun p => p.2.map SetItem.str) =
      (ontology.map Prod.snd).map (fun ts => ts.map SetItem.str) := by
    simp [List.map_map, Function.comp]
  rw [hm, flatten_map_setItemStr, vocabOfItems_str]

theorem encSimZero_good : goodEnc encSimZero := by
  intro r j
  refine ⟨by simp [encSimZero], ?_⟩
  intro row hrow
  simp only [encSimZero, List.mem_map] at hrow
  obtain ⟨a, -, rfl⟩ := hrow
  refine ⟨by simp, ?_⟩
  intro x hx
  simp only [List.mem_map] at hx
  obtain ⟨b, -, rfl⟩ := hx
  norm_num

/-- C1: on a well-formed similarity generator and a documented-shape
ontology, `compute_score` returns a report whose total is
`40*embedding + 30*coverage + 15*keyword_alignment + 15*evidence` with each
sub-score on its [0,1] scale, rounded to one decimal and clamped to
[0,100]; the total and all four displayed subscores lie in [0,100]. -/
theorem claim_C1_total_score (encSim : List String → List String → List (List ℚ))
    (h : goodEnc encSim) (resume jd : String) (ontology : List (String × List String)) :
    compute_score encSim resume jd (some (encodeOntology ontology)) =
        Except.ok (compute_score_report encSim resume jd ontology) ∧
      (compute_score_report encSim resume jd ontology).total_score =
        pyMax 0 (pyMin 100 (round1
          (40 * embedding_similarity encSim (split_sentences (clean_text resume))
              (split_sentences (clean_text jd)) +
            30 * (skills_coverage (clean_text resume) (clean_text jd) ontology).1 +
            15 * keyword_alignment (clean_text resume) (clean_text jd) none +
            15 * evidence_score (split_sentences (clean_text resume))))) ∧
      (0 ≤ (compute_score_report encSim resume jd ontology).total_score ∧
        (compute_score_report encSim resume jd ontology).total_score ≤ 100) ∧
      (0 ≤ (compute_score_report encSim resume jd ontology).subscores.embedding_similarity ∧
        (compute_score_report encSim resume jd ontology).subscores.embedding_similarity ≤ 100) ∧
      (0 ≤ (compute_score_report encSim resume jd ontology).subscores.skills_coverage ∧
        (compute_score_report encSim resume jd ontology).subscores.skills_coverage ≤ 100) ∧
      (0 ≤ (compute_score_report encSim resume jd ontology).subscores.keyword_alignment ∧
        (compute_score_report encSim resume jd ontology).subscores.keyword_alignment ≤ 100) ∧
      (0 ≤ (compute_score_report encSim resume jd ontology).subscores.evidence ∧
        (compute_score_report encSim resume jd ontology).subscores.evidence ≤ 100) := by
  obtain ⟨he0, he1⟩ := embedding_similarity_mem encSim h (split_sentences (clean_text resume))
    (split_sentences (clean_text jd))
  obtain ⟨hc0, hc1⟩ := skills_coverage_vocab_fst_mem (pySortedSet (ontology.map Prod.snd).flatten)
    (clean_text resume) (clean_text jd)
  obtain ⟨hk0, hk1⟩ := keyword_alignment_mem (clean_text resume) (clean_text jd) none
  obtain ⟨hv0, hv1⟩ := evidence_score_mem (split_sentences (clean_text resume))
  refine ⟨?_, rfl, ?_, ?_, ?_, ?_, ?_⟩
  · show Except.map (compute_score_core encSim resume jd) (vocabOfJson (encodeOntology ontology)) =
      Except.ok (compute_score_report encSim resume jd ontology)
    rw [vocabOfJson_encode]
    rfl
  · exact clamp_mem _
  · exact round1_mem_0_100 (by linarith) (by linarith)
  · exact round1_mem_0_100 (by linarith) (by linarith)
  · exact round1_mem_0_100 (by linarith) (by linarith)
  · exact round1_mem_0_100 (by linarith) (by linarith)

/-- C7 counterexample: an ontology resource that parses as a JSON object
whose bucket is a string — not the documented list of term strings — is not
a fatal error: the call completes and returns a report, scoring with the
characters of the string as vocabulary. -/
theorem claim_C7_counterexample :
    isOkResult (compute_score encSimZero "they go far" "must go now"
      (some (JValue.obj [("cat", JValue.str "go")]))) = true := rfl

/-- C7 as amended: a missing or unparsable ontology resource propagates a
fatal error, as does a top-level value that is not a JSON object, a bucket
that is not iterable (null or a number), an unhashable bucket element (a
nested list, raised while the set is built), a bucket whose set mixes
strings with numbers (raised by `sorted`), and an all-number bucket
(raised by the first `term.lower()` in `extract_terms`); but a bucket that
is itself a string (iterated as its characters) or a nested object
(iterated as its keys) is silently accepted and scored with the derived
vocabulary, so not every departure from the documented shape is fatal. -/
theorem claim_C7_amended :
    (∀ encSim r j, compute_score encSim r j none = Except.error PyError.resourceError) ∧
    (∀ encSim r j items, compute_score encSim r j (some (JValue.arr items)) =
      Except.error PyError.attributeError) ∧
    (∀ encSim r j key rest, compute_score encSim r j
        (some (JValue.obj ((key, JValue.null) :: rest))) =
      Except.error PyError.typeError) ∧
    (∀ encSim r j key q rest, compute_score encSim r j
        (some (JValue.obj ((key, JValue.num q) :: rest))) =
      Except.error PyError.typeError) ∧
    (∀ encSim r j key items more rest, compute_score encSim r j
        (some (JValue.obj ((key, JValue.arr (JValue.arr items :: more)) :: rest))) =
      Except.error PyError.typeError) ∧
    (∀ encSim r j key q s, compute_score encSim r j
        (some (JValue.obj [(key, JValue.arr [JValue.num q, JValue.str s])])) =
      Except.error PyError.typeError) ∧
    (∀ encSim r j key q, compute_score encSim r j
        (some (JValue.obj [(key, JValue.arr [JValue.num q])])) =
      Except.error PyError.attributeError) ∧
    isOkResult (compute_score encSimZero "resume text" "jd text"
      (some (JValue.obj [("nested", JValue.obj [("python", JValue.null)])]))) = true :=
  ⟨fun _ _ _ => rfl, fun _ _ _ _ => rfl, fun _ _ _ _ _ => rfl, fun _ _ _ _ _ _ => rfl,
    fun _ _ _ _ _ _ _ => rfl, fun _ _ _ _ _ _ => rfl, fun _ _ _ _ _ => rfl, rfl⟩

theorem claim_C1_witness :
    goodEnc encSimZero ∧
      (0 ≤ (compute_score_report encSimZero "Skilled in python. Cut costs by 20%."
          "Need python." [("languages", ["python"])]).total_score ∧
        (compute_score_report encSimZero "Skilled in python. Cut costs by 20%."
          "Need python." [("languages", ["python"])]).total_score ≤ 100) :=
  ⟨encSimZero_good,
    (claim_C1_total_score encSimZero encSimZero_good "Skilled in python. Cut costs by 20%."
      "Need python." [("languages", ["python"])]).2.2.1⟩

theorem claim_C2_witness :
    termSet "need python" (ontologyVocab [("languages", ["python", "sql"])]) ≠ ∅ ∧
      (skills_coverage "knows python and sql" "need python"
          [("languages", ["python", "sql"])]).1 =
        ((termSet "need python" (ontologyVocab [("languages", ["python", "sql"])]) ∩
            termSet "knows python and sql"
              (ontologyVocab [("languages", ["python", "sql"])])).card : ℚ) /
          ((termSet "need python" (ontologyVocab [("languages", ["python", "sql"])])).card : ℚ) :=
  ⟨by decide,
    (claim_C2_skills_coverage_formula "knows python and sql" "need python"
      [("languages", ["python", "sql"])] (by decide)).1⟩

theorem claim_C4_witness :
    termSet "no skills mentioned here" (ontologyVocab [("languages", ["python"])]) = ∅ ∧
      (skills_coverage "python expert" "no skills mentioned here"
        [("languages", ["python"])]).1 = 0 :=
  ⟨by decide,
    (claim_C4_empty_jd_fallback "python expert" "no skills mentioned here"
      [("languages", ["python"])] (by decide)).1⟩

theorem claim_C5_witness :
    termSet "we led the effort" (effectiveVerbs none) ≠ ∅ ∧
      keyword_alignment "built and led" "we led the effort" none =
        ((termSet "built and led" (effectiveVerbs none) ∩
            termSet "we led the effort" (effectiveVerbs none)).card : ℚ) /
          ((termSet "we led the effort" (effectiveVerbs none)).card : ℚ) :=
  ⟨by decide,
    (claim_C5_keyword_alignment "built and led" "we led the effort" none).1 (by decide)⟩

theorem claim_C6_witness :
    (["Led a team.", "Grew 5%."] : List String) ≠ [] ∧
      evidence_score ["Led a team.", "Grew 5%."] =
        pyMin 1 ((List.countP metricSearch ["Led a team.", "Grew 5%."] : ℚ) /
          ((["Led a team.", "Grew 5%."] : List String).length : ℚ)) :=
  ⟨by decide, claim_C6_evidence_score.1 ["Led a team.", "Grew 5%."] (by decide)⟩

theorem claim_C8_witness :
    goodEnc encSimZero ∧ embedding_similarity encSimZero ["some sentence"] [] = 0 :=
  ⟨encSimZero_good,
    (claim_C8_embedding_similarity encSimZero encSimZero_good ["some sentence"] []).1
      (Or.inr rfl)⟩

theorem claim_C9_witness :
    "python" ∈ termSet "python dev" (ontologyVocab [("l", ["python"])]) ∧
      "python" ∉ termSet "nothing relevant" (ontologyVocab [("l", ["python"])]) ∧
      termSet "python" (ontologyVocab [("l", ["python"])]) =
        insert "python" (termSet "nothing relevant" (ontologyVocab [("l", ["python"])])) ∧
      (skills_coverage "python dev" "nothing relevant" [("l", ["python"])]).1 ≤
        (skills_coverage "python dev" "python" [("l", ["python"])]).1 :=
  ⟨by decide, by decide, by decide,
    claim_C9_coverage_monotone "python dev" "nothing relevant" "python" [("l", ["python"])]
      "python" (by decide) (by decide) (by decide)⟩

end ResumeMatcher
